import Mathlib

/-!
Shallow embedding of the task/commission core of the monodo-server repository
(`product/views.py`, `level/models.py`, `product/models.py`,
`authentication` migrations).  Money is modelled as `ℚ` (the source uses
`Decimal`, whose additions, multiplications and divisions by 100 are exact at
these magnitudes); statuses are the source's string literals; nullable columns
are `Option`; each Django view's transactional body is a pure function from a
pre-state to a post-state.
-/

namespace Monodo

/-- Embedding of `level.Level` (fields used by the task/commission core).
`frozen_commission_rate` and `start_continuous_orders_after` are nullable. -/
structure Level where
  id : Nat
  commission_rate : ℚ
  frozen_commission_rate : Option ℚ
  min_orders : Int
  start_continuous_orders_after : Option Int
  price_min_percent : ℚ
  price_max_percent : ℚ
deriving Repr, DecidableEq

/-- Embedding of `product.Product` (fields used by the core).  `position` is a non-null
integer column with default 0; `status` is one of ACTIVE / INACTIVE /
OUT_OF_STOCK. -/
structure Product where
  id : Nat
  price : ℚ
  use_actual_price : Bool
  position : Int
  pstatus : String
deriving Repr, DecidableEq

/-- Embedding of `product.ProductReview` (per user×product assignment row).
`status` is PENDING or COMPLETED; `completed_at` is a nullable timestamp
(modelled as `Option Nat`); `agreed_price` and `position` are nullable. -/
structure Review where
  status : String
  review_text : String
  commission_earned : ℚ
  completed_at : Option Nat
  agreed_price : Option ℚ
  use_actual_price : Bool
  use_frozen_commission : Bool
  position : Option Int
deriving Repr, DecidableEq

/-- Embedding of `authentication.User` (participant fields used by the core; the balance,
freeze and counter columns are those added by migrations 0008–0014). -/
structure UserState where
  id : Nat
  balance : ℚ
  balance_frozen : Bool
  balance_frozen_amount : Option ℚ
  level : Option Level
  completed_products_count : Nat
  is_training_account : Bool
deriving Repr, DecidableEq

/-- Pre-state of one `submit_product_review` request: the submitting user, the
balance of the user's origin account (`none` when the user has no
`original_account`), the product row, the user's existing review row for that
product if any, the submitted free text, and the current time. -/
structure SubmitInput where
  user : UserState
  origin_balance : Option ℚ
  product : Product
  existing_review : Option Review
  review_text : String
  now : Nat
deriving Repr, DecidableEq

/-- Post-state of one `submit_product_review` request. -/
structure SubmitOutput where
  user : UserState
  origin_balance : Option ℚ
  review : Review
deriving Repr, DecidableEq

/-- Effective price resolution of `submit_product_review` (views.py 563–572):
assignment `use_actual_price` → product price; product `use_actual_price` →
product price; cached `agreed_price` → that; otherwise product price. -/
def product_price_of (s : SubmitInput) : ℚ :=
  match s.existing_review with
  | some r =>
    if r.use_actual_price then s.product.price
    else if s.product.use_actual_price then s.product.price
    else
      match r.agreed_price with
      | some ap => ap
      | none => s.product.price
  | none => s.product.price

/-- Local `was_previously_completed` (views.py 574). -/
def was_previously_completed (s : SubmitInput) : Bool :=
  match s.existing_review with
  | some r => r.status = "COMPLETED"
  | none => false

/-- Local `is_frozen_pending` (views.py 576–579): the existing review is
frozen-commission eligible and the user is currently frozen with a non-null
frozen snapshot. -/
def is_frozen_pending (s : SubmitInput) : Bool :=
  (match s.existing_review with
   | some r => r.use_frozen_commission
   | none => false)
  && s.user.balance_frozen && s.user.balance_frozen_amount.isSome

/-- Local `review_status` (views.py 580–586): compare the frozen snapshot against
the price when frozen-pending, otherwise the live balance. -/
def review_status_of (s : SubmitInput) : String :=
  if is_frozen_pending s then
    if s.user.balance_frozen_amount.getD 0 ≥ product_price_of s then "COMPLETED"
    else "PENDING"
  else if s.user.balance < product_price_of s then "PENDING"
  else "COMPLETED"

/-- Local `commission_rate` selection (views.py 588–596): frozen rate (fallback 6.00)
when the existing review is frozen-commission eligible, else the level's normal
rate; 0 without a level. -/
def commission_rate_of (s : SubmitInput) : ℚ :=
  match s.user.level with
  | some lvl =>
    if (match s.existing_review with
        | some r => r.use_frozen_commission
        | none => false) then
      match lvl.frozen_commission_rate with
      | some fr => fr
      | none => 6
    else lvl.commission_rate
  | none => 0

/-- Local `commission_amount` (views.py 598). -/
def commission_amount_of (s : SubmitInput) : ℚ :=
  product_price_of s * commission_rate_of s / 100

/-- Local `should_process_commission` (views.py 604). -/
def should_process_commission (s : SubmitInput) : Bool :=
  review_status_of s = "COMPLETED"
  && (s.existing_review.isNone || !was_previously_completed s)

/-- The review row written inside the transaction (views.py 606–630). -/
def updated_review (s : SubmitInput) : Review :=
  let rs := review_status_of s
  match s.existing_review with
  | some r =>
    { r with
      review_text := s.review_text
      status := rs
      commission_earned := if rs = "COMPLETED" then commission_amount_of s else 0
      completed_at := if rs = "COMPLETED" then some s.now else none
      use_frozen_commission := if rs = "PENDING" then true else r.use_frozen_commission }
  | none =>
    { status := rs
      review_text := s.review_text
      commission_earned := if rs = "COMPLETED" then commission_amount_of s else 0
      completed_at := if rs = "COMPLETED" then some s.now else none
      agreed_price := none
      use_actual_price := false
      use_frozen_commission := rs = "PENDING"
      position := none }

/-- The whole atomic body of `submit_product_review` (views.py 602–655):
review write, optional origin-account bonus, commission credit or freeze
debit, and the counter increment, as one transition. -/
def submit_product_review (s : SubmitInput) : SubmitOutput :=
  let user_balance := s.user.balance
  let review := updated_review s
  if should_process_commission s then
    let origin' :=
      if s.user.is_training_account then
        match s.origin_balance with
        | some ob => some (ob + commission_amount_of s * 30 / 100)
        | none => none
      else s.origin_balance
    let user' :=
      if is_frozen_pending s && s.user.balance_frozen then
        { s.user with
          balance := s.user.balance_frozen_amount.getD 0 + commission_amount_of s
          balance_frozen := false
          balance_frozen_amount := none
          completed_products_count := s.user.completed_products_count + 1 }
      else
        { s.user with
          balance := s.user.balance + commission_amount_of s
          balance_frozen := false
          balance_frozen_amount := none
          completed_products_count := s.user.completed_products_count + 1 }
    { user := user', origin_balance := origin', review := review }
  else if review_status_of s = "PENDING" && !s.user.balance_frozen then
    { user :=
        { s.user with
          balance := user_balance - product_price_of s
          balance_frozen := true
          balance_frozen_amount := some user_balance }
      origin_balance := s.origin_balance
      review := review }
  else
    { user := s.user, origin_balance := s.origin_balance, review := review }

/-! ### Price agreement (views.py 449–472) -/

/-- Rounding of the drawn price to two decimals (`round(x, 2)`), modelled as
round-to-nearest on cents.  The source computes with floats; the draw is
modelled as the exact rational value of the uniform sample. -/
def round2 (x : ℚ) : ℚ := (round (x * 100) : ℤ) / 100

/-- The lower band bound the code uses: `(min_pct / 100) * balance` with
`min_pct = 30.0` (the `matching_min_percent` user field read by the view was
removed by authentication migration 0013, so `getattr` always yields `None`
and the hardcoded default applies). -/
def band_low (balance : ℚ) : ℚ := 30 / 100 * balance

/-- The upper band bound the code uses: `(max_pct / 100) * balance` with
`max_pct = 70.0` (same reason as `band_low`). -/
def band_high (balance : ℚ) : ℚ := 70 / 100 * balance

/-- The agreed-price value computed on first materialization
(views.py 457–471): for positive balance, the rounded uniform draw floored at
0.01; otherwise exactly 0.01.  `draw` stands for the value of
`random.uniform(low, high)`, constrained by `band_low ≤ draw ≤ band_high`
whenever it is consulted. -/
def agreed_price_value (balance : ℚ) (draw : ℚ) : ℚ :=
  if 0 < balance then max (1 / 100) (round2 draw) else 1 / 100

/-- One slot's lazy materialization of `agreed_price` (views.py 457–472):
computed only when not yet cached and no actual-price override is set. -/
def materialize_agreed_price (r : Review) (p : Product) (balance draw : ℚ) :
    Review :=
  if r.agreed_price.isNone && !p.use_actual_price && !r.use_actual_price then
    { r with agreed_price := some (agreed_price_value balance draw) }
  else r

/-! ### Task pool builder (`_get_dashboard_pool`, views.py 296–368) -/

/-- Seed of the per-participant shuffle (views.py 338):
`user.id * 100000 + (level.id or 0)`. -/
def pool_seed (user_id level_id : Nat) : Nat := user_id * 100000 + level_id

/-- One step of the pseudo-random generator.  `random.Random(seed)` is a
deterministic generator (Mersenne Twister); the claims about the pool depend
only on its determinism given the seed, so it is modelled by a deterministic
linear congruential step. -/
def rand_state_next (s : Nat) : Nat := (s * 1103515245 + 12345) % 2147483648

/-- Bounds-checked array swap used by the shuffle. -/
def swap_at {α : Type} (a : Array α) (i j : Nat) : Array α :=
  if h1 : i < a.size then
    if h2 : j < a.size then a.swap ⟨i, h1⟩ ⟨j, h2⟩ else a
  else a

/-- Fisher–Yates loop of `rng.shuffle`: for `i` from `n−1` down to `1`, swap
index `i` with a generated index `j ≤ i`. -/
def shuffle_go {α : Type} : Nat → Nat → Array α → Array α
  | 0, _, a => a
  | i + 1, st, a =>
    let st' := rand_state_next st
    shuffle_go i st' (swap_at a (i + 1) (st' % (i + 2)))

/-- Embedding of `random.Random(seed).shuffle(l)` as a pure function of the seed and the
list (views.py 339–340). -/
def shuffle_seeded {α : Type} (seed : Nat) (l : List α) : List α :=
  (shuffle_go (l.length - 1) seed l.toArray).toList

/-- Python-dict insertion with overwrite keeping the original key slot,
used to model `{r.position: r.product for r in ...}`. -/
def dict_upsert : List (Int × Product) → Int → Product → List (Int × Product)
  | [], k, v => [(k, v)]
  | (k', v') :: rest, k, v =>
    if k' = k then (k, v) :: rest else (k', v') :: dict_upsert rest k v

/-- Local `assigned_by_pos` (views.py 334): positioned reviews (ordered by
position) restricted to ACTIVE products, as a position→product dict. -/
def build_assigned_by_pos (assigned : List (Int × Product)) :
    List (Int × Product) :=
  assigned.foldl
    (fun d kv => if kv.2.pstatus = "ACTIVE" then dict_upsert d kv.1 kv.2 else d)
    []

/-- Dict lookup by position. -/
def lookup_pos (d : List (Int × Product)) (pos : Int) : Option Product :=
  (d.find? (fun kv => kv.1 = pos)).map (fun kv => kv.2)

/-- Stable insertion into a position-sorted list (models Python's stable
`sort`/`sorted`). -/
def insert_by_pos (x : Int × Product) :
    List (Int × Product) → List (Int × Product)
  | [] => [x]
  | y :: ys => if y.1 ≤ x.1 then y :: insert_by_pos x ys else x :: y :: ys

/-- Stable sort by position. -/
def sort_by_pos : List (Int × Product) → List (Int × Product)
  | [] => []
  | x :: xs => insert_by_pos x (sort_by_pos xs)

/-- The slot loop (views.py 342–352): for each position `1..min_orders`, use
the pinned product if any, else consume the next shuffled pool candidate. -/
def combine_slots :
    List (Int × Product) → List Product → Int → Nat → List (Int × Product)
  | _, _, _, 0 => []
  | d, cands, pos, n + 1 =>
    match lookup_pos d pos with
    | some p => (pos, p) :: combine_slots d cands (pos + 1) n
    | none =>
      match cands with
      | [] => combine_slots d [] (pos + 1) n
      | c :: rest => (pos, c) :: combine_slots d rest (pos + 1) n

/-- The combined ordering of `_get_dashboard_pool` (views.py 329–358) for a
user with a level: pinned assignments override slots, the remaining slots are
filled from the seeded shuffle of the candidate pool, pins beyond
`min_orders` extend the queue, and the result is sorted by position. -/
def dashboard_ordering (user_id : Nat) (lvl : Level)
    (pool_products : List Product) (assigned : List (Int × Product)) :
    List (Int × Product) :=
  let d := build_assigned_by_pos assigned
  let used := d.map (fun kv => kv.2.id)
  let cands := pool_products.filter (fun p => !used.contains p.id)
  let shuffled := shuffle_seeded (pool_seed user_id lvl.id) cands
  let base := combine_slots d shuffled 1 lvl.min_orders.toNat
  let extras := (sort_by_pos d).filter (fun kv => kv.1 > lvl.min_orders)
  sort_by_pos (base ++ extras)

/-- Entry point of `_get_dashboard_pool`: no level yields an empty queue.
`ambient_rng` models the process-global `random` module state at call time;
the pool builder constructs its own `random.Random(seed)` (views.py 338–340)
and never reads the global generator, which is what makes repeated calls
deterministic. -/
def get_dashboard_pool (user_id : Nat) (level : Option Level)
    (pool_products : List Product) (assigned : List (Int × Product))
    (ambient_rng : Nat) : List (Int × Product) :=
  match level with
  | none => []
  | some lvl => dashboard_ordering user_id lvl pool_products assigned

/-! ### Continuous orders (views.py 1571–1677) -/

/-- A `ProductReview` row keyed by user and product, for the DB-level
operations (continuous orders, reset). -/
structure ReviewRow where
  user_id : Nat
  product_id : Nat
  status : String
  commission_earned : ℚ
  completed_at : Option Nat
  use_actual_price : Bool
  position : Option Int
deriving Repr, DecidableEq

/-- Embedding of `_get_start_continuous_orders_after` (views.py 1571–1580). -/
def get_start_continuous_orders_after (level : Option Level) : Int :=
  match level with
  | none => 0
  | some lvl =>
    match lvl.start_continuous_orders_after with
    | some v => max 0 v
    | none => max 0 (lvl.min_orders - 10)

/-- Count of the user's reviews with `position >= cs`
(`position__gte=continuous_start`; NULL positions excluded). -/
def count_continuous (cs : Int) (reviews : List ReviewRow) : Nat :=
  (reviews.filter (fun r =>
    match r.position with
    | some p => cs ≤ p
    | none => false)).length

/-- Embedding of `_get_next_continuous_position` (views.py 1583–1591): `reviews` are the
target user's review rows; `continuous_start` is threshold + 1. -/
def get_next_continuous_position (level : Option Level)
    (reviews : List ReviewRow) : Int :=
  get_start_continuous_orders_after level + 1 +
    count_continuous (get_start_continuous_orders_after level + 1) reviews

/-- The position formula exactly as the claim words it: threshold + 1 + count
of assignments positioned at or after the threshold itself.  Stated only for
comparison with `get_next_continuous_position`. -/
def claimed_next_continuous_position (level : Option Level)
    (reviews : List ReviewRow) : Int :=
  get_start_continuous_orders_after level + 1 +
    count_continuous (get_start_continuous_orders_after level) reviews

/-- Body of `admin_add_product_to_continuous_order` (views.py 1659–1670):
compute the next position, `get_or_create` the (user, product) review, set
`use_actual_price` and `position`.  Returns the new rows and the position. -/
def admin_add_product_to_continuous_order (level : Option Level)
    (reviews : List ReviewRow) (uid pid : Nat) : List ReviewRow × Int :=
  let next_pos := get_next_continuous_position level reviews
  let reviews' :=
    if (reviews.find? (fun r => r.product_id = pid)).isSome then
      reviews.map (fun r =>
        if r.product_id = pid then
          { r with use_actual_price := true, position := some next_pos }
        else r)
    else
      reviews ++ [{ user_id := uid, product_id := pid, status := "PENDING",
                    commission_earned := 0, completed_at := none,
                    use_actual_price := true, position := some next_pos }]
  (reviews', next_pos)

/-! ### Global template reposition (`insert_product_at_position`,
views.py 1480–1504).  `position` is a non-null integer column with default 0;
the code treats `None`/0 as "not yet positioned" (`is_insert`). -/

/-- Per-row effect of the reposition on one product `t`: the moved product
gets position `b`; with `a = 0` (`is_insert`: the moved product had no real
position yet) every product at or after `b` shifts up; moving earlier
(`b < a`) shifts `[b, a)` up by one; moving later shifts `(a, b]` down by
one. -/
def move_map (pid : Nat) (a b : Int) (t : Product) : Product :=
  if t.id = pid then { t with position := b }
  else if a = 0 then
    if b ≤ t.position then { t with position := t.position + 1 } else t
  else if b < a then
    if b ≤ t.position ∧ t.position < a then
      { t with position := t.position + 1 }
    else t
  else
    if a < t.position ∧ t.position ≤ b then
      { t with position := t.position - 1 }
    else t

/-- The global-position part of `insert_product_at_position`: the atomic
range shift of every product's `position` when `pid` is requested at `b`
(`position == current_position` is a no-op; a missing product was rejected
with 404 before the transaction). -/
def insert_product_at_position (ps : List Product) (pid : Nat) (b : Int) :
    List Product :=
  match ps.find? (fun t => t.id = pid) with
  | none => ps
  | some tp =>
    if b = tp.position then ps
    else ps.map (move_map pid tp.position b)

/-! ### Progress reset (`reset_user_level_progress_impl`, views.py 696–726) -/

/-- A `transaction.Transaction` row (fields used by the reset). -/
structure TransactionRow where
  member_account_id : Nat
  tstatus : String
deriving Repr, DecidableEq

/-- The today-commission aggregate (views.py 380–385, 660–665): sum of
`commission_earned` over the user's COMPLETED reviews completed today. -/
def todays_commission (uid : Nat) (today_start : Nat)
    (reviews : List ReviewRow) : ℚ :=
  ((reviews.filter (fun r =>
      r.user_id = uid && r.status = "COMPLETED" &&
      (match r.completed_at with
       | some t => today_start ≤ t
       | none => false))).map (fun r => r.commission_earned)).sum

/-- Embedding of `reset_user_level_progress_impl`: delete the user's COMPLETED reviews for
the level's products, the user's reviews completed today, and the user's
COMPLETED transactions; zero the counter; leave everything else (in
particular the balance) untouched. -/
def reset_user_level_progress_impl (uid : Nat) (level_product_ids : List Nat)
    (today_start : Nat) (reviews : List ReviewRow)
    (transactions : List TransactionRow) (user : UserState) :
    List ReviewRow × List TransactionRow × UserState :=
  let is_level_completed := fun (r : ReviewRow) =>
    r.user_id = uid && level_product_ids.contains r.product_id &&
    r.status = "COMPLETED"
  let is_today_completed := fun (r : ReviewRow) =>
    r.user_id = uid && r.status = "COMPLETED" &&
    (match r.completed_at with
     | some t => today_start ≤ t
     | none => false)
  let reviews' :=
    reviews.filter (fun r => !is_level_completed r && !is_today_completed r)
  let transactions' :=
    transactions.filter
      (fun t => !(t.member_account_id = uid && t.tstatus = "COMPLETED"))
  let user' := { user with completed_products_count := 0 }
  (reviews', transactions', user')

/-! ### Sample states used by counterexamples and witnesses -/

/-- A sample tier: 10% commission, 6% frozen commission, pool of 30. -/
def sample_level : Level :=
  { id := 2, commission_rate := 10, frozen_commission_rate := some 6,
    min_orders := 30, start_continuous_orders_after := none,
    price_min_percent := 30, price_max_percent := 70 }

/-- A COMPLETED review row (commission 7 on an agreed price of 70). -/
def sample_completed_review : Review :=
  { status := "COMPLETED", review_text := "old", commission_earned := 7,
    completed_at := some 1, agreed_price := some 70,
    use_actual_price := false, use_frozen_commission := false,
    position := none }

/-- Resubmission of an already-COMPLETED task while the live balance (5) no
longer covers the agreed price (70). -/
def resubmit_low_balance : SubmitInput :=
  { user := { id := 1, balance := 5, balance_frozen := false,
              balance_frozen_amount := none, level := some sample_level,
              completed_products_count := 3, is_training_account := false }
    origin_balance := none
    product := { id := 7, price := 70, use_actual_price := false,
                 position := 0, pstatus := "ACTIVE" }
    existing_review := some sample_completed_review
    review_text := "resubmit"
    now := 9 }

/-- Resubmission of an already-COMPLETED task while the live balance (100)
still covers the agreed price (70). -/
def resubmit_high_balance : SubmitInput :=
  { resubmit_low_balance with
    user := { resubmit_low_balance.user with balance := 100 } }

/-- The spec's freeze example: fresh submission, balance 50, price 70. -/
def fresh_insufficient : SubmitInput :=
  { user := { id := 1, balance := 50, balance_frozen := false,
              balance_frozen_amount := none, level := some sample_level,
              completed_products_count := 0, is_training_account := false }
    origin_balance := none
    product := { id := 7, price := 70, use_actual_price := true,
                 position := 0, pstatus := "ACTIVE" }
    existing_review := none
    review_text := "try"
    now := 5 }

/-- A frozen-pending resubmission: snapshot 50, live balance −20, agreed
price 40 now covered by the snapshot. -/
def frozen_resubmit : SubmitInput :=
  { user := { id := 1, balance := -20, balance_frozen := true,
              balance_frozen_amount := some 50, level := some sample_level,
              completed_products_count := 4, is_training_account := false }
    origin_balance := none
    product := { id := 7, price := 70, use_actual_price := false,
                 position := 0, pstatus := "ACTIVE" }
    existing_review := some
      { status := "PENDING", review_text := "old", commission_earned := 0,
        completed_at := none, agreed_price := some 40,
        use_actual_price := false, use_frozen_commission := true,
        position := none }
    review_text := "again"
    now := 11 }

/-- A tier configured with a 10–20% price band (narrower than the hardcoded
30–70 the view actually uses). -/
def narrow_band_level : Level :=
  { id := 4, commission_rate := 10, frozen_commission_rate := some 6,
    min_orders := 30, start_continuous_orders_after := none,
    price_min_percent := 10, price_max_percent := 20 }

/-- A fresh review row with nothing cached and no overrides. -/
def blank_review : Review :=
  { status := "PENDING", review_text := "", commission_earned := 0,
    completed_at := none, agreed_price := none, use_actual_price := false,
    use_frozen_commission := false, position := none }

/-- A product with no actual-price override. -/
def plain_product : Product :=
  { id := 8, price := 100, use_actual_price := false, position := 0,
    pstatus := "ACTIVE" }

/-- A tier whose continuous-order threshold is configured to 8. -/
def continuous_level : Option Level :=
  some { id := 9, commission_rate := 0, frozen_commission_rate := none,
         min_orders := 30, start_continuous_orders_after := some 8,
         price_min_percent := 30, price_max_percent := 70 }

/-- A single assignment pinned exactly AT the threshold position 8. -/
def review_at_threshold : List ReviewRow :=
  [{ user_id := 1, product_id := 5, status := "PENDING",
     commission_earned := 0, completed_at := none, use_actual_price := true,
     position := some 8 }]

/-- Review rows for the reset example (user 1, tier products = [5],
today_start = 80): one completed tier review today, one completed
off-tier review before today, one pending, and another user's row. -/
def c9_reviews : List ReviewRow :=
  [{ user_id := 1, product_id := 5, status := "COMPLETED",
     commission_earned := 7, completed_at := some 100,
     use_actual_price := false, position := none },
   { user_id := 1, product_id := 6, status := "COMPLETED",
     commission_earned := 3, completed_at := some 50,
     use_actual_price := false, position := none },
   { user_id := 1, product_id := 7, status := "PENDING",
     commission_earned := 0, completed_at := none,
     use_actual_price := false, position := none },
   { user_id := 2, product_id := 5, status := "COMPLETED",
     commission_earned := 4, completed_at := some 100,
     use_actual_price := false, position := none }]

/-- Transaction rows for the reset example. -/
def c9_txs : List TransactionRow :=
  [{ member_account_id := 1, tstatus := "COMPLETED" },
   { member_account_id := 1, tstatus := "PENDING" },
   { member_account_id := 2, tstatus := "COMPLETED" }]

/-- The user being reset (balance 123, counter 9). -/
def c9_user : UserState :=
  { id := 1, balance := 123, balance_frozen := false,
    balance_frozen_amount := none, level := some sample_level,
    completed_products_count := 9, is_training_account := false }

/-- Catalog of five products at positions 1..5 for the reposition example. -/
def c8_products : List Product :=
  [{ id := 1, price := 10, use_actual_price := false, position := 1,
     pstatus := "ACTIVE" },
   { id := 2, price := 10, use_actual_price := false, position := 2,
     pstatus := "ACTIVE" },
   { id := 3, price := 10, use_actual_price := false, position := 3,
     pstatus := "ACTIVE" },
   { id := 4, price := 10, use_actual_price := false, position := 4,
     pstatus := "ACTIVE" },
   { id := 5, price := 10, use_actual_price := false, position := 5,
     pstatus := "ACTIVE" }]

/-- The product being moved (id 5, currently at position 5). -/
def c8_moved : Product :=
  { id := 5, price := 10, use_actual_price := false, position := 5,
    pstatus := "ACTIVE" }

/-- A training account (origin balance 0) completing a task whose commission
is 10 (price 100, rate 10%). -/
def training_completion : SubmitInput :=
  { user := { id := 3, balance := 200, balance_frozen := false,
              balance_frozen_amount := none, level := some sample_level,
              completed_products_count := 0, is_training_account := true }
    origin_balance := some 0
    product := { id := 7, price := 100, use_actual_price := true,
                 position := 0, pstatus := "ACTIVE" }
    existing_review := none
    review_text := "t"
    now := 5 }

end Monodo

namespace Monodo

/-! ### Theorems -/

/-- C1 (counterexample): resubmitting an already-COMPLETED task while the
live balance (5) is below the agreed price (70) does NOT leave the assignment
COMPLETED with its commission and balance untouched: the code reverts the
review to PENDING, zeroes `commission_earned`, and debits/freezes the
balance. -/
theorem C1_resubmission_counterexample :
    was_previously_completed resubmit_low_balance = true ∧
    (submit_product_review resubmit_low_balance).review.status = "PENDING" ∧
    (submit_product_review resubmit_low_balance).review.commission_earned
        = 0 ∧
    (submit_product_review resubmit_low_balance).user.balance = -65 ∧
    (submit_product_review resubmit_low_balance).user.balance
        ≠ resubmit_low_balance.user.balance := by
  refine ⟨rfl, ?_, ?_, ?_, ?_⟩ <;>
    simp [resubmit_low_balance, sample_completed_review, sample_level,
      submit_product_review, updated_review, should_process_commission,
      review_status_of, is_frozen_pending, was_previously_completed,
      product_price_of, commission_rate_of, commission_amount_of] <;>
    norm_num

/-- C1 (amended): if the assignment is already COMPLETED and the comparison
balance (frozen snapshot when frozen-pending, live balance otherwise) still
covers the effective price, the submission leaves the status COMPLETED,
leaves the user row (balance, frozen fields, counter) and the origin balance
exactly unchanged, and overwrites `commission_earned` with the freshly
computed commission (the same value as long as price and rate are
unchanged). -/
theorem C1_completed_resubmission_no_recredit (s : SubmitInput)
    (hc : was_previously_completed s = true)
    (hcov : product_price_of s ≤
      (if is_frozen_pending s then s.user.balance_frozen_amount.getD 0
       else s.user.balance)) :
    (submit_product_review s).review.status = "COMPLETED" ∧
    (submit_product_review s).review.commission_earned
        = commission_amount_of s ∧
    (submit_product_review s).user = s.user ∧
    (submit_product_review s).origin_balance = s.origin_balance := by
  have hrs : review_status_of s = "COMPLETED" := by
    unfold review_status_of
    cases hf : is_frozen_pending s with
    | false =>
      rw [hf] at hcov
      simp only [Bool.false_eq_true, if_false] at hcov
      simp [not_lt.mpr hcov]
    | true =>
      rw [hf] at hcov
      simp only [if_true] at hcov
      simp [ge_iff_le, hcov]
  have hex : s.existing_review.isNone = false := by
    unfold was_previously_completed at hc
    cases h : s.existing_review with
    | none => rw [h] at hc; simp at hc
    | some r => simp [h]
  have hsp : should_process_commission s = false := by
    unfold should_process_commission
    rw [hrs, hex, hc]
    simp
  cases h : s.existing_review with
  | none =>
    rw [h] at hex
    simp at hex
  | some r =>
    refine ⟨?_, ?_, ?_, ?_⟩ <;>
      simp [submit_product_review, hsp, hrs, updated_review, h]

/-- C1 witness: the amended theorem applied to the concrete resubmission with
balance 100 ≥ price 70. -/
theorem C1_completed_resubmission_no_recredit_witness :
    was_previously_completed resubmit_high_balance = true ∧
    product_price_of resubmit_high_balance ≤
      (if is_frozen_pending resubmit_high_balance then
        resubmit_high_balance.user.balance_frozen_amount.getD 0
       else resubmit_high_balance.user.balance) ∧
    ((submit_product_review resubmit_high_balance).review.status
        = "COMPLETED" ∧
     (submit_product_review resubmit_high_balance).review.commission_earned
        = commission_amount_of resubmit_high_balance ∧
     (submit_product_review resubmit_high_balance).user
        = resubmit_high_balance.user ∧
     (submit_product_review resubmit_high_balance).origin_balance
        = resubmit_high_balance.origin_balance) :=
  ⟨by decide,
   by
     simp [resubmit_high_balance, resubmit_low_balance,
       sample_completed_review, is_frozen_pending, product_price_of]
     norm_num,
   C1_completed_resubmission_no_recredit resubmit_high_balance (by decide)
     (by
       simp [resubmit_high_balance, resubmit_low_balance,
         sample_completed_review, is_frozen_pending, product_price_of]
       norm_num)⟩

/-- C2: a submission that is not frozen-pending and whose live balance is
below the effective price leaves the assignment PENDING and
frozen-commission eligible; if the participant was not already frozen, the
live balance is debited by the price (possibly below zero), the pre-debit
balance is snapshotted into `balance_frozen_amount` and `balance_frozen` is
set; if the participant was already frozen, the user row is untouched. -/
theorem C2_insufficient_balance_freezes (s : SubmitInput)
    (hnf : is_frozen_pending s = false)
    (hlt : s.user.balance < product_price_of s) :
    (submit_product_review s).review.status = "PENDING" ∧
    (submit_product_review s).review.use_frozen_commission = true ∧
    (s.user.balance_frozen = false →
      (submit_product_review s).user.balance
          = s.user.balance - product_price_of s ∧
      (submit_product_review s).user.balance_frozen_amount
          = some s.user.balance ∧
      (submit_product_review s).user.balance_frozen = true) ∧
    (s.user.balance_frozen = true →
      (submit_product_review s).user = s.user) := by
  have hrs : review_status_of s = "PENDING" := by
    unfold review_status_of
    rw [hnf]
    simp [hlt]
  have hsp : should_process_commission s = false := by
    unfold should_process_commission
    rw [hrs]
    simp
  have hrev : (updated_review s).status = "PENDING" ∧
      (updated_review s).use_frozen_commission = true := by
    cases h : s.existing_review with
    | none => simp [updated_review, h, hrs]
    | some r => simp [updated_review, h, hrs]
  have hrev_eq : (submit_product_review s).review = updated_review s := by
    simp only [submit_product_review]
    split_ifs <;> rfl
  cases hbf : s.user.balance_frozen with
  | false =>
    refine ⟨hrev_eq ▸ hrev.1, hrev_eq ▸ hrev.2, fun _ => ⟨?_, ?_, ?_⟩,
      fun hco => ?_⟩
    · simp [submit_product_review, hsp, hrs, hbf]
    · simp [submit_product_review, hsp, hrs, hbf]
    · simp [submit_product_review, hsp, hrs, hbf]
    · simp [hbf] at hco
  | true =>
    refine ⟨hrev_eq ▸ hrev.1, hrev_eq ▸ hrev.2, fun hco => ?_, fun _ => ?_⟩
    · simp [hbf] at hco
    · simp [submit_product_review, hsp, hrs, hbf]

/-- C2 witness: the spec's example (balance 50, price 70) through the
theorem: PENDING, frozen, snapshot 50, live balance −20. -/
theorem C2_insufficient_balance_freezes_witness :
    is_frozen_pending fresh_insufficient = false ∧
    fresh_insufficient.user.balance < product_price_of fresh_insufficient ∧
    ((submit_product_review fresh_insufficient).review.status = "PENDING" ∧
     (submit_product_review fresh_insufficient).review.use_frozen_commission
        = true ∧
     (fresh_insufficient.user.balance_frozen = false →
       (submit_product_review fresh_insufficient).user.balance
           = fresh_insufficient.user.balance
             - product_price_of fresh_insufficient ∧
       (submit_product_review fresh_insufficient).user.balance_frozen_amount
           = some fresh_insufficient.user.balance ∧
       (submit_product_review fresh_insufficient).user.balance_frozen
           = true) ∧
     (fresh_insufficient.user.balance_frozen = true →
       (submit_product_review fresh_insufficient).user
           = fresh_insufficient.user)) :=
  ⟨by decide, by decide,
   C2_insufficient_balance_freezes fresh_insufficient (by decide) (by decide)⟩

/-- C3: submitting a frozen-pending assignment (frozen-commission eligible,
participant frozen with a non-null snapshot) compares the snapshot — not the
live balance — against the price; when the snapshot covers it, the review
completes with `completed_at` set and the commission credited on top of the
restored snapshot, both frozen fields are cleared and the completion counter
is incremented, all in the same transition. -/
theorem C3_frozen_resubmission_completes (s : SubmitInput) (r : Review)
    (fa : ℚ)
    (hr : s.existing_review = some r)
    (hf : r.use_frozen_commission = true)
    (hp : r.status = "PENDING")
    (hfz : s.user.balance_frozen = true)
    (hfa : s.user.balance_frozen_amount = some fa)
    (hge : product_price_of s ≤ fa) :
    review_status_of s = "COMPLETED" ∧
    (∀ b : ℚ,
      review_status_of { s with user := { s.user with balance := b } }
          = "COMPLETED") ∧
    (submit_product_review s).review.status = "COMPLETED" ∧
    (submit_product_review s).review.completed_at = some s.now ∧
    (submit_product_review s).review.commission_earned
        = commission_amount_of s ∧
    (submit_product_review s).user.balance = fa + commission_amount_of s ∧
    (submit_product_review s).user.balance_frozen = false ∧
    (submit_product_review s).user.balance_frozen_amount = none ∧
    (submit_product_review s).user.completed_products_count
        = s.user.completed_products_count + 1 := by
  have hfp : is_frozen_pending s = true := by
    simp [is_frozen_pending, hr, hf, hfz, hfa]
  have hrs : review_status_of s = "COMPLETED" := by
    unfold review_status_of
    rw [hfp]
    simp [hfa, ge_iff_le, hge]
  have hrs' : ∀ b : ℚ,
      review_status_of { s with user := { s.user with balance := b } }
          = "COMPLETED" := by
    intro b
    have hfp' :
        is_frozen_pending { s with user := { s.user with balance := b } }
            = true := hfp
    unfold review_status_of
    rw [hfp']
    simp only [if_true, eq_self_iff_true]
    show (if s.user.balance_frozen_amount.getD 0 ≥ product_price_of s then
        "COMPLETED" else "PENDING") = "COMPLETED"
    rw [hfa]
    simp [ge_iff_le, hge]
  have hwp : was_previously_completed s = false := by
    simp [was_previously_completed, hr, hp]
  have hsp : should_process_commission s = true := by
    simp [should_process_commission, hrs, hwp]
  refine ⟨hrs, hrs', ?_, ?_, ?_, ?_, ?_, ?_, ?_⟩ <;>
    simp [submit_product_review, hsp, hfp, hfz, hfa, updated_review, hr, hrs]

/-- C3 witness: the theorem applied to the frozen resubmission with snapshot
50 and agreed price 40 (commission 40 × 6% = 2.4, final balance 52.4). -/
theorem C3_frozen_resubmission_completes_witness :
    frozen_resubmit.existing_review = some
      { status := "PENDING", review_text := "old", commission_earned := 0,
        completed_at := none, agreed_price := some 40,
        use_actual_price := false, use_frozen_commission := true,
        position := none } ∧
    frozen_resubmit.user.balance_frozen = true ∧
    frozen_resubmit.user.balance_frozen_amount = some 50 ∧
    product_price_of frozen_resubmit ≤ 50 ∧
    (review_status_of frozen_resubmit = "COMPLETED" ∧
     (∀ b : ℚ,
       review_status_of
           { frozen_resubmit with
             user := { frozen_resubmit.user with balance := b } }
           = "COMPLETED") ∧
     (submit_product_review frozen_resubmit).review.status = "COMPLETED" ∧
     (submit_product_review frozen_resubmit).review.completed_at
        = some frozen_resubmit.now ∧
     (submit_product_review frozen_resubmit).review.commission_earned
        = commission_amount_of frozen_resubmit ∧
     (submit_product_review frozen_resubmit).user.balance
        = 50 + commission_amount_of frozen_resubmit ∧
     (submit_product_review frozen_resubmit).user.balance_frozen = false ∧
     (submit_product_review frozen_resubmit).user.balance_frozen_amount
        = none ∧
     (submit_product_review frozen_resubmit).user.completed_products_count
        = frozen_resubmit.user.completed_products_count + 1) :=
  ⟨rfl, rfl, rfl, by norm_num [product_price_of, frozen_resubmit],
   C3_frozen_resubmission_completes frozen_resubmit _ 50 rfl rfl rfl rfl rfl
     (by norm_num [product_price_of, frozen_resubmit])⟩

/-- C5: whenever a settlement processes commission (PENDING→COMPLETED), a
training account with an origin account credits the origin exactly 30% of
the commission amount in the same transition as the participant's own
credit, status change and counter increment, independent of the frozen
state; any participant that is not a training account or has no origin
account leaves the origin balance unchanged. -/
theorem C5_training_origin_split (s : SubmitInput) :
    (∀ ob : ℚ, s.origin_balance = some ob →
      s.user.is_training_account = true →
      should_process_commission s = true →
      (submit_product_review s).origin_balance
          = some (ob + commission_amount_of s * 30 / 100) ∧
      (submit_product_review s).review.status = "COMPLETED" ∧
      (submit_product_review s).user.completed_products_count
          = s.user.completed_products_count + 1) ∧
    ((s.user.is_training_account = false ∨ s.origin_balance = none) →
      (submit_product_review s).origin_balance = s.origin_balance) := by
  constructor
  · intro ob hob htr hsp
    have hrs : review_status_of s = "COMPLETED" := by
      unfold should_process_commission at hsp
      by_cases h : review_status_of s = "COMPLETED"
      · exact h
      · rw [Bool.and_eq_true] at hsp
        exact absurd hsp.1 (by simpa using h)
    refine ⟨?_, ?_, ?_⟩ <;>
      cases hfp : is_frozen_pending s <;>
      cases hbf : s.user.balance_frozen <;>
      cases hex : s.existing_review <;>
        simp [submit_product_review, hsp, hob, htr, hfp, hbf,
          updated_review, hex, hrs]
  · intro hno
    cases hsp : should_process_commission s with
    | false =>
      simp only [submit_product_review, hsp, Bool.false_eq_true, if_false]
      split_ifs <;> rfl
    | true =>
      rcases hno with hno | hno
      · simp [submit_product_review, hsp, hno]
      · cases htr : s.user.is_training_account <;>
          simp [submit_product_review, hsp, htr, hno]

/-- C5 witness: training completion with commission 10 credits the origin
3.00 in the same step. -/
theorem C5_training_origin_split_witness :
    training_completion.origin_balance = some 0 ∧
    training_completion.user.is_training_account = true ∧
    should_process_commission training_completion = true ∧
    (submit_product_review training_completion).origin_balance
        = some (0 + commission_amount_of training_completion * 30 / 100) ∧
    (submit_product_review training_completion).review.status
        = "COMPLETED" ∧
    (submit_product_review training_completion).user.completed_products_count
        = training_completion.user.completed_products_count + 1 :=
  ⟨rfl, rfl, by decide,
   ((C5_training_origin_split training_completion).1 0 rfl rfl
     (by decide)).1,
   ((C5_training_origin_split training_completion).1 0 rfl rfl
     (by decide)).2.1,
   ((C5_training_origin_split training_completion).1 0 rfl rfl
     (by decide)).2.2⟩

/-- C4 (failing input): the agreed-price band actually used is the hardcoded
30–70% of the balance, not the tier's configured
`price_min_percent`/`price_max_percent` band: with the tier configured to
10–20% and balance 100, the draw 50 is inside the code's band
[`band_low`, `band_high`] = [30, 70], the code caches 50, yet 50 exceeds the
tier's 20% × 100 = 20 upper bound. -/
theorem C4_band_ignores_tier_configuration :
    band_low 100 ≤ 50 ∧ (50 : ℚ) ≤ band_high 100 ∧
    agreed_price_value 100 50 = 50 ∧
    narrow_band_level.price_max_percent / 100 * 100 = 20 ∧
    ¬(agreed_price_value 100 50
        ≤ narrow_band_level.price_max_percent / 100 * 100) := by
  refine ⟨?_, ?_, ?_, ?_, ?_⟩ <;>
    norm_num [band_low, band_high, agreed_price_value, round2,
      narrow_band_level]

/-- C10: when the live balance is non-positive at first materialization, no
band draw is consulted — the cached agreed price is exactly 0.01 for every
possible draw. -/
theorem C10_nonpositive_balance_fixed_agreed_price (r : Review) (p : Product)
    (balance draw : ℚ) (hb : balance ≤ 0) (hr : r.agreed_price = none)
    (hp : p.use_actual_price = false) (hrp : r.use_actual_price = false) :
    agreed_price_value balance draw = 1 / 100 ∧
    (materialize_agreed_price r p balance draw).agreed_price
        = some (1 / 100) := by
  have hv : agreed_price_value balance draw = 1 / 100 := by
    unfold agreed_price_value
    rw [if_neg (not_lt.mpr hb)]
  exact ⟨hv, by simp [materialize_agreed_price, hr, hp, hrp, hv]⟩

/-- C10 witness: balance −20, arbitrary draw 7, fresh review: agreed price
becomes exactly 0.01. -/
theorem C10_nonpositive_balance_fixed_agreed_price_witness :
    (-20 : ℚ) ≤ 0 ∧ blank_review.agreed_price = none ∧
    plain_product.use_actual_price = false ∧
    blank_review.use_actual_price = false ∧
    (agreed_price_value (-20) 7 = 1 / 100 ∧
     (materialize_agreed_price blank_review plain_product (-20) 7).agreed_price
        = some (1 / 100)) :=
  ⟨by norm_num, rfl, rfl, rfl,
   C10_nonpositive_balance_fixed_agreed_price blank_review plain_product
     (-20) 7 (by norm_num) rfl rfl rfl⟩

/-- C6: the pool ordering returned by `_get_dashboard_pool` is independent of
the ambient global random state: it is a pure function of the participant,
the tier, the candidate pool and the pinned assignments, because the shuffle
runs on a private generator seeded by `pool_seed (participant, tier)`.  Two
invocations under identical catalog/override state therefore return the
identical ordering. -/
theorem C6_pool_ordering_deterministic (user_id : Nat)
    (level : Option Level) (pool_products : List Product)
    (assigned : List (Int × Product)) (g1 g2 : Nat) :
    get_dashboard_pool user_id level pool_products assigned g1
        = get_dashboard_pool user_id level pool_products assigned g2 := by
  cases level <;> rfl

/-- C9: the tier reset zeroes the completion counter, leaves the user row
otherwise bit-for-bit unchanged (in particular the balance), makes today's
commission aggregate report 0, and removes every COMPLETED review of the
tier's products and every COMPLETED ledger entry of the user. -/
theorem C9_reset_clears_progress_keeps_balance (uid : Nat) (pids : List Nat)
    (ts : Nat) (reviews : List ReviewRow) (txs : List TransactionRow)
    (user : UserState) :
    (reset_user_level_progress_impl uid pids ts reviews txs user).2.2
        = { user with completed_products_count := 0 } ∧
    (reset_user_level_progress_impl uid pids ts reviews txs user).2.2.balance
        = user.balance ∧
    todays_commission uid ts
        (reset_user_level_progress_impl uid pids ts reviews txs user).1
        = 0 ∧
    (∀ r ∈ (reset_user_level_progress_impl uid pids ts reviews txs user).1,
      ¬(r.user_id = uid ∧ r.product_id ∈ pids ∧
        r.status = "COMPLETED")) ∧
    (∀ t ∈
        (reset_user_level_progress_impl uid pids ts reviews txs user).2.1,
      ¬(t.member_account_id = uid ∧ t.tstatus = "COMPLETED")) := by
  refine ⟨rfl, rfl, ?_, ?_, ?_⟩
  · have hnil :
        ((reset_user_level_progress_impl uid pids ts reviews txs user).1.filter
          (fun r => r.user_id = uid && r.status = "COMPLETED" &&
            (match r.completed_at with
             | some t => ts ≤ t
             | none => false))) = [] := by
      rw [List.filter_eq_nil_iff]
      intro r hr
      unfold reset_user_level_progress_impl at hr
      simp only [List.mem_filter] at hr
      have h2 := hr.2
      rw [Bool.and_eq_true] at h2
      have h3 := h2.2
      simp only [Bool.not_eq_true'] at h3
      simp [h3]
    unfold todays_commission
    rw [hnil]
    simp
  · intro r hr
    unfold reset_user_level_progress_impl at hr
    simp only [List.mem_filter] at hr
    have h2 := hr.2
    rw [Bool.and_eq_true] at h2
    have h3 := h2.1
    simp only [Bool.not_eq_true'] at h3
    rintro ⟨ha, hb, hc⟩
    simp [ha, hc] at h3
    exact h3 hb
  · intro t ht
    unfold reset_user_level_progress_impl at ht
    simp only [List.mem_filter] at ht
    have h2 := ht.2
    simp only [Bool.not_eq_true'] at h2
    rintro ⟨ha, hb⟩
    simp [ha, hb] at h2

/-- C9 witness: the theorem applied to the concrete reset example; the
balance 123 is untouched, the counter drops from 9 to 0. -/
theorem C9_reset_clears_progress_keeps_balance_witness :
    (reset_user_level_progress_impl 1 [5] 80 c9_reviews c9_txs c9_user).2.2
        = { c9_user with completed_products_count := 0 } ∧
    (reset_user_level_progress_impl 1 [5] 80 c9_reviews c9_txs
        c9_user).2.2.balance = c9_user.balance ∧
    todays_commission 1 80
        (reset_user_level_progress_impl 1 [5] 80 c9_reviews c9_txs c9_user).1
        = 0 :=
  ⟨(C9_reset_clears_progress_keeps_balance 1 [5] 80 c9_reviews c9_txs
      c9_user).1,
   (C9_reset_clears_progress_keeps_balance 1 [5] 80 c9_reviews c9_txs
      c9_user).2.1,
   (C9_reset_clears_progress_keeps_balance 1 [5] 80 c9_reviews c9_txs
      c9_user).2.2.1⟩

/-- C7 (counterexample): with the threshold configured to 8 and one
assignment pinned exactly AT position 8, the code's next continuous position
is 9 (it counts only positions ≥ threshold+1), while the claim's formula
"threshold + 1 + count of assignments positioned at or after the threshold"
yields 10. -/
theorem C7_threshold_count_counterexample :
    get_next_continuous_position continuous_level review_at_threshold = 9 ∧
    claimed_next_continuous_position continuous_level review_at_threshold
        = 10 ∧
    get_next_continuous_position continuous_level review_at_threshold
        ≠ claimed_next_continuous_position continuous_level
            review_at_threshold := by
  refine ⟨?_, ?_, ?_⟩ <;> decide

/-- C7 (amended): the next continuous position equals threshold + 1 + the
count of the participant's assignments positioned STRICTLY after the
threshold (at or after threshold + 1); adding a product that has no existing
review row returns exactly that position and makes the following add land
one position later (strictly sequential appends). -/
theorem C7_next_position_strictly_after_threshold (level : Option Level)
    (reviews : List ReviewRow) (uid pid : Nat)
    (hfresh : ∀ r ∈ reviews, r.product_id ≠ pid) :
    get_next_continuous_position level reviews
        = get_start_continuous_orders_after level + 1 +
          (reviews.filter (fun r =>
            match r.position with
            | some p => get_start_continuous_orders_after level < p
            | none => false)).length ∧
    (admin_add_product_to_continuous_order level reviews uid pid).2
        = get_next_continuous_position level reviews ∧
    get_next_continuous_position level
        (admin_add_product_to_continuous_order level reviews uid pid).1
        = get_next_continuous_position level reviews + 1 := by
  refine ⟨?_, rfl, ?_⟩
  · unfold get_next_continuous_position
    have hq : count_continuous (get_start_continuous_orders_after level + 1)
        reviews
        = (reviews.filter (fun r =>
            match r.position with
            | some p => get_start_continuous_orders_after level < p
            | none => false)).length := by
      unfold count_continuous
      apply congrArg List.length
      apply List.filter_congr
      intro r _
      cases r.position with
      | none => rfl
      | some p => simp [Int.lt_iff_add_one_le]
    rw [hq]
  · have hfind : reviews.find? (fun r => r.product_id = pid) = none := by
      rw [List.find?_eq_none]
      intro x hx
      simpa using hfresh x hx
    have h1 : (admin_add_product_to_continuous_order level reviews uid pid).1
        = reviews ++
          [{ user_id := uid, product_id := pid, status := "PENDING",
             commission_earned := 0, completed_at := none,
             use_actual_price := true,
             position := some (get_next_continuous_position level reviews) }]
        := by
      unfold admin_add_product_to_continuous_order
      rw [hfind]
      rfl
    rw [h1]
    have happ : count_continuous (get_start_continuous_orders_after level + 1)
        (reviews ++
          [{ user_id := uid, product_id := pid, status := "PENDING",
             commission_earned := 0, completed_at := none,
             use_actual_price := true,
             position := some (get_next_continuous_position level reviews) }])
        = count_continuous (get_start_continuous_orders_after level + 1)
            reviews + 1 := by
      unfold count_continuous
      rw [List.filter_append, List.length_append]
      have hge : get_start_continuous_orders_after level + 1 ≤
          get_next_continuous_position level reviews := by
        unfold get_next_continuous_position
        omega
      simp [List.filter_cons, hge]
    unfold get_next_continuous_position
    unfold get_next_continuous_position at happ
    rw [happ]
    push_cast
    ring

/-- C7 witness: the amended theorem at the concrete threshold-8 state with a
product (id 6) that has no review row yet. -/
theorem C7_next_position_strictly_after_threshold_witness :
    (∀ r ∈ review_at_threshold, r.product_id ≠ 6) ∧
    (get_next_continuous_position continuous_level review_at_threshold
        = get_start_continuous_orders_after continuous_level + 1 +
          (review_at_threshold.filter (fun r =>
            match r.position with
            | some p => get_start_continuous_orders_after continuous_level < p
            | none => false)).length ∧
     (admin_add_product_to_continuous_order continuous_level
        review_at_threshold 1 6).2
        = get_next_continuous_position continuous_level review_at_threshold ∧
     get_next_continuous_position continuous_level
        (admin_add_product_to_continuous_order continuous_level
          review_at_threshold 1 6).1
        = get_next_continuous_position continuous_level review_at_threshold
          + 1) :=
  ⟨by decide,
   C7_next_position_strictly_after_threshold continuous_level
     review_at_threshold 1 6 (by decide)⟩

/-- C8: repositioning the product `pid` from its current global position `a`
(`a ≠ 0`, so not a fresh insert) to a different requested position `b`
shifts exactly the other products in `[b, a)` up by one when moving earlier
and exactly those in `(a, b]` down by one when moving later, puts the moved
product at `b`, and — when all positions were pairwise distinct beforehand —
leaves all positions pairwise distinct afterwards. -/
theorem C8_reposition_shifts_interval (ps : List Product) (pid : Nat)
    (tp : Product) (a b : Int)
    (hfind : ps.find? (fun t => t.id = pid) = some tp)
    (hpos : tp.position = a) (ha : a ≠ 0) (hab : b ≠ a)
    (hid : ps.Pairwise (fun t1 t2 => t1.id ≠ t2.id))
    (hpd : ps.Pairwise (fun t1 t2 => t1.position ≠ t2.position)) :
    (∀ t ∈ insert_product_at_position ps pid b, t.id = pid →
        t.position = b) ∧
    (∀ t ∈ ps, t.id ≠ pid →
      ∃ t' ∈ insert_product_at_position ps pid b, t'.id = t.id ∧
        t'.position =
          (if b < a then
            (if b ≤ t.position ∧ t.position < a then t.position + 1
             else t.position)
           else
            (if a < t.position ∧ t.position ≤ b then t.position - 1
             else t.position))) ∧
    (insert_product_at_position ps pid b).Pairwise
        (fun t1 t2 => t1.position ≠ t2.position) := by
  have htp_mem : tp ∈ ps := List.mem_of_find?_eq_some hfind
  have htp_id : tp.id = pid := by simpa using List.find?_some hfind
  have hres : insert_product_at_position ps pid b
      = ps.map (move_map pid a b) := by
    unfold insert_product_at_position
    simp only [hfind]
    rw [hpos, if_neg hab]
  have hne_a : ∀ t ∈ ps, t.id ≠ pid → t.position ≠ a := by
    intro t ht hne heq
    have htne : t ≠ tp := fun h => hne (h ▸ htp_id)
    have hsym : Symmetric (fun t1 t2 : Product =>
        t1.position ≠ t2.position) := fun _ _ h e => h e.symm
    exact (hpd.forall hsym ht htp_mem htne) (heq.trans hpos.symm)
  have hmm_id : ∀ t : Product, (move_map pid a b t).id = t.id := by
    intro t
    unfold move_map
    split_ifs <;> rfl
  refine ⟨?_, ?_, ?_⟩
  · intro t htm hideq
    rw [hres] at htm
    obtain ⟨x, hx, hfx⟩ := List.mem_map.mp htm
    by_cases hxid : x.id = pid
    · rw [← hfx]
      unfold move_map
      rw [if_pos hxid]
    · rw [← hfx, hmm_id x] at hideq
      exact absurd hideq hxid
  · intro t ht hne
    refine ⟨move_map pid a b t, ?_, hmm_id t, ?_⟩
    · rw [hres]
      exact List.mem_map_of_mem _ ht
    · unfold move_map
      rw [if_neg hne, if_neg ha]
      split_ifs <;> rfl
  · rw [hres, List.pairwise_map]
    refine (hid.and hpd).imp_of_mem ?_
    intro x y hx hy hxy
    obtain ⟨hxyid, hxypos⟩ := hxy
    by_cases hxp : x.id = pid <;> by_cases hyp : y.id = pid
    · exact absurd (hxp.trans hyp.symm) hxyid
    · have h5 : y.position ≠ a := hne_a y hy hyp
      simp only [move_map, hxp, hyp, ha, if_true, if_false]
      split_ifs <;> simp <;> omega
    · have h5 : x.position ≠ a := hne_a x hx hxp
      simp only [move_map, hxp, hyp, ha, if_true, if_false]
      split_ifs <;> simp <;> omega
    · have h5 : x.position ≠ a := hne_a x hx hxp
      have h6 : y.position ≠ a := hne_a y hy hyp
      simp only [move_map, hxp, hyp, ha, if_true, if_false]
      split_ifs <;> simp <;> omega

/-- C8 witness: moving the product at position 5 to position 2 in the
five-product catalog — products at {2, 3, 4} shift to {3, 4, 5}, the moved
product lands at 2, and all positions stay distinct. -/
theorem C8_reposition_shifts_interval_witness :
    c8_products.find? (fun t => t.id = 5) = some c8_moved ∧
    c8_moved.position = 5 ∧ (5 : Int) ≠ 0 ∧ (2 : Int) ≠ 5 ∧
    c8_products.Pairwise (fun t1 t2 => t1.id ≠ t2.id) ∧
    c8_products.Pairwise (fun t1 t2 => t1.position ≠ t2.position) ∧
    ((∀ t ∈ insert_product_at_position c8_products 5 2, t.id = 5 →
        t.position = 2) ∧
     (∀ t ∈ c8_products, t.id ≠ 5 →
       ∃ t' ∈ insert_product_at_position c8_products 5 2, t'.id = t.id ∧
         t'.position =
           (if (2 : Int) < 5 then
             (if 2 ≤ t.position ∧ t.position < 5 then t.position + 1
              else t.position)
            else
             (if 5 < t.position ∧ t.position ≤ 2 then t.position - 1
              else t.position))) ∧
     (insert_product_at_position c8_products 5 2).Pairwise
         (fun t1 t2 => t1.position ≠ t2.position)) :=
  ⟨rfl, rfl, by decide, by decide, by decide, by decide,
   C8_reposition_shifts_interval c8_products 5 c8_moved 5 2 rfl rfl
     (by decide) (by decide) (by decide) (by decide)⟩

end Monodo
